import Mathlib

/-!
Shallow embedding of the ATS Scoring Engine (free ATS scoring integrations
module) of the AI-IT-Path-Finder repository, together with proofs of the
spec's testable properties.

Modelling conventions:
* JavaScript numbers are embedded as exact rationals (`ℚ`); all arithmetic
  performed by the engine stays within small exactly-representable values.
* JavaScript strings are Lean `String`s; `text.includes(needle)` is embedded
  as substring containment over the underlying character lists, and
  `toLowerCase` as a character-wise lowercase map.
* `text.split(/\s+/).filter(w => w.length > 0).length` (the word count) is
  embedded as the number of maximal runs of non-whitespace characters.
* `Math.round` is `fun q => ⌊q + 1/2⌋` (round half toward positive infinity),
  matching JavaScript semantics.
* The remote adapters' network-dependent behaviour (the `fetch` calls) is
  abstracted: the orchestrator `getATSScore` takes each remote adapter as a
  function returning `Except`, and the success-path response mapping of the
  Hugging Face adapter is embedded with the remote summary as a parameter.
-/

/-! ## String machinery -/

/-- Does `needle` occur as a prefix of `haystack`? (character lists) -/
def beginsWith : List Char → List Char → Bool
  | [], _ => true
  | _ :: _, [] => false
  | a :: as, b :: bs => a == b && beginsWith as bs

/-- Does `needle` occur as a contiguous substring of `haystack`?
Embeds JavaScript `haystack.includes(needle)`. -/
def containsSub (needle : List Char) : List Char → Bool
  | [] => beginsWith needle []
  | c :: rest => beginsWith needle (c :: rest) || containsSub needle rest

/-- Embeds JavaScript `s.toLowerCase()`, character-wise, producing the
character list the scorer works over. -/
def lowerStr (s : String) : List Char :=
  s.data.map Char.toLower

/-- Auxiliary word counter: `inWord` records whether the previous character
was part of a word. -/
def countWordsAux (inWord : Bool) : List Char → Nat
  | [] => 0
  | c :: t =>
    if c.isWhitespace then countWordsAux false t
    else (if inWord then 0 else 1) + countWordsAux true t

/-- Embeds `text.split(/\s+/).filter(word => word.length > 0).length`:
the number of maximal runs of non-whitespace characters. -/
def wordCount (text : List Char) : Nat :=
  countWordsAux false text

/-- Embeds JavaScript `Math.round` (round half toward positive infinity). -/
def jsRound (q : ℚ) : ℚ :=
  ((⌊q + 1/2⌋ : ℤ) : ℚ)

/-! ## Data model -/

/-- The optional `breakdown` record of an `ATSScoreResult`. -/
structure Breakdown where
  keywordMatch : ℚ
  formatting : ℚ
  «structure» : ℚ
  contentQuality : ℚ
  deriving Repr, DecidableEq

/-- The engine's sole output type (interface `ATSScoreResult`). -/
structure ATSScoreResult where
  score : ℚ
  suggestions : List String
  keywords : List String
  missingKeywords : List String
  breakdown : Option Breakdown
  deriving Repr, DecidableEq

/-- The provider preference accepted by `getATSScore`. -/
inductive ApiPreference where
  | resumeworded
  | huggingface
  | google
  | «local»
  deriving Repr, DecidableEq

/-! ## Keyword catalog and local heuristic scorer -/

/-- The common ATS keyword catalog of `calculateLocalATSScore`. -/
def commonKeywords : List String :=
  ["python", "javascript", "react", "node.js", "sql", "aws", "docker",
   "kubernetes", "machine learning", "data analysis", "project management",
   "leadership", "communication", "teamwork", "problem solving",
   "analytical skills", "agile", "scrum", "git", "api", "rest",
   "microservices"]

/-- `const foundKeywords = commonKeywords.filter(keyword => text.includes(keyword))`
where `text` is the lowercased input. -/
def foundKeywords (cvText : String) : List String :=
  commonKeywords.filter (fun k => containsSub k.data (lowerStr cvText))

/-- `const keywordScore = (foundKeywords.length / commonKeywords.length) * 100`. -/
def keywordScore (cvText : String) : ℚ :=
  ((foundKeywords cvText).length : ℚ) / (commonKeywords.length : ℚ) * 100

/-- The formatting sub-score: start at 100; subtract 30 for a "table"/"image"
marker, 20 for word count above 2000, 15 for word count below 200. -/
def formattingScore (cvText : String) : ℚ :=
  let text := lowerStr cvText
  let words := wordCount text
  let f : ℚ := 100
  let f := if containsSub "table".data text || containsSub "image".data text then f - 30 else f
  let f := if words > 2000 then f - 20 else f
  if words < 200 then f - 15 else f

/-- The structure sub-score: start at 100; subtract 20 when neither "email"
nor "@" occurs, 25 when "experience" is absent, 20 when "education" is
absent, 20 when "skills" is absent. -/
def structureScore (cvText : String) : ℚ :=
  let text := lowerStr cvText
  let s : ℚ := 100
  let s := if !containsSub "email".data text && !containsSub "@".data text then s - 20 else s
  let s := if !containsSub "experience".data text then s - 25 else s
  let s := if !containsSub "education".data text then s - 20 else s
  if !containsSub "skills".data text then s - 20 else s

/-- `const totalScore = Math.round(keywordScore*0.4 + formattingScore*0.3 + structureScore*0.3)`. -/
def totalScore (cvText : String) : ℚ :=
  jsRound (keywordScore cvText * 0.4 + formattingScore cvText * 0.3 + structureScore cvText * 0.3)

/-- The suggestion generator `generateSuggestions`: a banded map from a score
to a fixed list of suggestion strings. -/
def generateSuggestions (score : ℚ) : List String :=
  if score < 60 then
    ["Add more relevant keywords from the job description",
     "Include quantifiable achievements and metrics",
     "Use action verbs to describe your experience"]
  else if score < 80 then
    ["Consider adding more industry-specific terminology",
     "Ensure all required sections are present",
     "Remove any complex formatting or tables"]
  else
    ["Great job! Your CV is well-optimized for ATS",
     "Consider customizing keywords for specific job applications"]

/-- The local heuristic scorer `calculateLocalATSScore`. -/
def calculateLocalATSScore (cvText : String) : ATSScoreResult :=
  { score := max 0 (min 100 (totalScore cvText))
    suggestions := generateSuggestions (totalScore cvText)
    keywords := foundKeywords cvText
    missingKeywords :=
      (commonKeywords.filter (fun k => !((foundKeywords cvText).contains k))).take 5
    breakdown := some
      { keywordMatch := jsRound (keywordScore cvText)
        formatting := jsRound (formattingScore cvText)
        «structure» := jsRound (structureScore cvText)
        contentQuality := 75 } }

/-! ## Summarization-based adapter helpers -/

/-- The keyword extractor `extractKeywords` used by the Hugging Face adapter. -/
def extractKeywords (text : String) : List String :=
  ["python", "javascript", "react", "node.js", "sql", "aws", "docker",
   "project management", "leadership", "communication", "teamwork"].filter
    (fun k => containsSub (k.data.map Char.toLower) (lowerStr text))

/-- `calculateBasicATSScore`: base 70, plus 10 for a summary longer than 50
characters, plus 3 points per matched technical keyword, plus 1.25 points per
matched action verb, capped at 100. -/
def calculateBasicATSScore (cvText summary : String) : ℚ :=
  let text := lowerStr cvText
  let summaryLower := lowerStr summary
  let score : ℚ := 70
  let score := if summaryLower.length > 50 then score + 10 else score
  let techKeywords : List String := ["python", "javascript", "react", "sql", "aws"]
  let foundTech := techKeywords.filter (fun k => containsSub k.data text)
  let score := score + ((foundTech.length : ℚ) / (techKeywords.length : ℚ)) * 15
  let actionVerbs : List String := ["developed", "implemented", "managed", "created"]
  let foundVerbs := actionVerbs.filter (fun v => containsSub v.data text)
  let score := score + ((foundVerbs.length : ℚ) / (actionVerbs.length : ℚ)) * 5
  min 100 score

/-- The success-path response mapping of `getHuggingFaceScore`, with the
summary text returned by the remote summarization call as a parameter
(`summary = data[0]?.summary_text || ''`). -/
def huggingFaceResult (cvText summary : String) : ATSScoreResult :=
  let score := calculateBasicATSScore cvText summary
  { score := score
    suggestions := generateSuggestions score
    keywords := extractKeywords cvText
    missingKeywords := []
    breakdown := none }

/-! ## Orchestrator -/

/-- The orchestrator `getATSScore`: dispatch on the provider preference inside
a try block; any error from a remote adapter is caught and answered by
`calculateLocalATSScore` on the same text. The three remote adapters'
network-dependent behaviour is abstracted as `Except`-returning functions. -/
def getATSScore (remoteRW remoteHF remoteG : String → Except String ATSScoreResult)
    (cvText : String) (apiPreference : ApiPreference) : ATSScoreResult :=
  let attempt : Except String ATSScoreResult :=
    match apiPreference with
    | .resumeworded => remoteRW cvText
    | .huggingface => remoteHF cvText
    | .google => remoteG cvText
    | .«local» => Except.ok (calculateLocalATSScore cvText)
  match attempt with
  | .ok r => r
  | .error _ => calculateLocalATSScore cvText

/-! ## Helper lemmas: substring containment is monotone under append -/

lemma beginsWith_append (n h s : List Char) (hb : beginsWith n h = true) :
    beginsWith n (h ++ s) = true := by
  induction n generalizing h with
  | nil => simp [beginsWith]
  | cons a as ih =>
    cases h with
    | nil => simp [beginsWith] at hb
    | cons b bs =>
      simp only [beginsWith, Bool.and_eq_true, beq_iff_eq] at hb
      simp only [List.cons_append, beginsWith, Bool.and_eq_true, beq_iff_eq]
      exact ⟨hb.1, ih bs hb.2⟩

lemma containsSub_nil_needle (l : List Char) : containsSub [] l = true := by
  cases l <;> simp [containsSub, beginsWith]

lemma containsSub_append (n h s : List Char) (hc : containsSub n h = true) :
    containsSub n (h ++ s) = true := by
  induction h with
  | nil =>
    cases n with
    | nil => simpa using containsSub_nil_needle s
    | cons a as => simp [containsSub, beginsWith] at hc
  | cons c rest ih =>
    simp only [containsSub, Bool.or_eq_true] at hc
    simp only [List.cons_append, containsSub, Bool.or_eq_true]
    rcases hc with hb | hr
    · exact Or.inl (by simpa using beginsWith_append n (c :: rest) s hb)
    · exact Or.inr (ih hr)

lemma lowerStr_append (t s : String) :
    lowerStr (t ++ s) = lowerStr t ++ lowerStr s := by
  simp [lowerStr, String.data_append]

/-! ## Helper lemmas: the rounding function -/

lemma jsRound_mono {p q : ℚ} (h : p ≤ q) : jsRound p ≤ jsRound q := by
  unfold jsRound
  exact_mod_cast Int.floor_mono (by linarith)

lemma jsRound_intCast (n : ℤ) : jsRound ((n : ℚ)) = (n : ℚ) := by
  unfold jsRound
  rw [Int.floor_int_add]
  norm_num

lemma le_jsRound_of_le (n : ℤ) {q : ℚ} (h : (n : ℚ) ≤ q) : (n : ℚ) ≤ jsRound q := by
  calc (n : ℚ) = jsRound ((n : ℚ)) := (jsRound_intCast n).symm
    _ ≤ jsRound q := jsRound_mono h

lemma jsRound_le_of_le (n : ℤ) {q : ℚ} (h : q ≤ (n : ℚ)) : jsRound q ≤ (n : ℚ) := by
  calc jsRound q ≤ jsRound ((n : ℚ)) := jsRound_mono h
    _ = (n : ℚ) := jsRound_intCast n

/-! ## Helper lemmas: sub-score bounds -/

lemma keywordScore_nonneg (t : String) : 0 ≤ keywordScore t := by
  unfold keywordScore
  positivity

lemma keywordScore_le (t : String) : keywordScore t ≤ 100 := by
  have hlen : (foundKeywords t).length ≤ commonKeywords.length :=
    List.length_filter_le _ _
  have h22 : commonKeywords.length = 22 := by decide
  have hn : ((foundKeywords t).length : ℚ) ≤ 22 := by
    exact_mod_cast h22 ▸ hlen
  unfold keywordScore
  rw [h22]
  have hq : ((foundKeywords t).length : ℚ) / 22 ≤ 1 :=
    (div_le_one (by norm_num)).mpr hn
  calc ((foundKeywords t).length : ℚ) / (22 : ℕ) * 100 ≤ 1 * 100 := by
        push_cast
        exact mul_le_mul_of_nonneg_right hq (by norm_num)
    _ = 100 := by norm_num

lemma formattingScore_bounds (t : String) :
    50 ≤ formattingScore t ∧ formattingScore t ≤ 100 := by
  simp only [formattingScore]
  split_ifs <;> constructor <;> first | (exfalso; omega) | norm_num

lemma structureScore_bounds (t : String) :
    15 ≤ structureScore t ∧ structureScore t ≤ 100 := by
  simp only [structureScore]
  split_ifs <;> constructor <;> norm_num

lemma totalScore_ge (t : String) : (20 : ℚ) ≤ totalScore t := by
  have hk := keywordScore_nonneg t
  have hf := (formattingScore_bounds t).1
  have hs := (structureScore_bounds t).1
  have h1 : 0 ≤ keywordScore t * 0.4 := mul_nonneg hk (by norm_num)
  have h2 : (15 : ℚ) ≤ formattingScore t * 0.3 := by nlinarith
  have h3 : (4.5 : ℚ) ≤ structureScore t * 0.3 := by nlinarith
  have harg : (39 / 2 : ℚ) ≤
      keywordScore t * 0.4 + formattingScore t * 0.3 + structureScore t * 0.3 := by
    linarith
  have h20 : jsRound (39 / 2 : ℚ) = 20 := by
    unfold jsRound
    norm_num
  calc (20 : ℚ) = jsRound (39 / 2 : ℚ) := h20.symm
    _ ≤ totalScore t := jsRound_mono harg

lemma totalScore_le (t : String) : totalScore t ≤ 100 := by
  have hk := keywordScore_le t
  have hf := (formattingScore_bounds t).2
  have hs := (structureScore_bounds t).2
  have h1 : keywordScore t * 0.4 ≤ 40 := by nlinarith
  have h2 : formattingScore t * 0.3 ≤ 30 := by nlinarith
  have h3 : structureScore t * 0.3 ≤ 30 := by nlinarith
  have harg : keywordScore t * 0.4 + formattingScore t * 0.3 + structureScore t * 0.3
      ≤ ((100 : ℤ) : ℚ) := by push_cast; linarith
  calc totalScore t ≤ ((100 : ℤ) : ℚ) := jsRound_le_of_le 100 harg
    _ = 100 := by norm_num

lemma score_eq_totalScore (t : String) :
    (calculateLocalATSScore t).score = totalScore t := by
  show max 0 (min 100 (totalScore t)) = totalScore t
  rw [min_eq_right (totalScore_le t),
    max_eq_right (le_trans (by norm_num) (totalScore_ge t))]

/-! ## Claim theorems -/

/-- Claim C1: for every input text string, the `ScoreResult` returned by the
local heuristic scorer `calculateLocalATSScore` has a score in the range
[0, 100]. -/
theorem localATSScore_score_in_range (t : String) :
    0 ≤ (calculateLocalATSScore t).score ∧ (calculateLocalATSScore t).score ≤ 100 := by
  constructor
  · exact le_max_left 0 _
  · exact max_le (by norm_num) (min_le_left 100 _)

/-- Claim C2: for every input text and every provider preference, if the
selected remote adapter raises any error then `getATSScore` catches it and
returns exactly the `ScoreResult` that `calculateLocalATSScore` produces on
the same text; `getATSScore` is total (returns an `ATSScoreResult`, never an
error), so no error is ever propagated to its caller. -/
theorem getATSScore_error_falls_back_to_local
    (remoteRW remoteHF remoteG : String → Except String ATSScoreResult)
    (t : String) (p : ApiPreference) (e : String)
    (h : (match p with
          | .resumeworded => remoteRW t
          | .huggingface => remoteHF t
          | .google => remoteG t
          | .«local» => Except.ok (calculateLocalATSScore t)) = Except.error e) :
    getATSScore remoteRW remoteHF remoteG t p = calculateLocalATSScore t := by
  simp only [getATSScore]
  rw [h]

/-- Witness for claim C2: an adapter that always fails with a simulated
network error, selected as the preferred provider, yields exactly the local
heuristic result. -/
theorem getATSScore_error_falls_back_to_local_witness :
    getATSScore (fun _ => Except.error "network error")
      (fun _ => Except.error "network error")
      (fun _ => Except.error "network error")
      "john resume text" ApiPreference.resumeworded =
    calculateLocalATSScore "john resume text" :=
  getATSScore_error_falls_back_to_local _ _ _ "john resume text"
    ApiPreference.resumeworded "network error" rfl

/-- Claim C7: the suggestion generator returns a fixed ordered list determined
only by the band of the score: three corrective suggestions below 60, three
refinement suggestions in [60, 80), and two affirming suggestions at 80 and
above. -/
theorem generateSuggestions_banded (s : ℚ) :
    generateSuggestions s =
      (if s < 60 then
        ["Add more relevant keywords from the job description",
         "Include quantifiable achievements and metrics",
         "Use action verbs to describe your experience"]
      else if s < 80 then
        ["Consider adding more industry-specific terminology",
         "Ensure all required sections are present",
         "Remove any complex formatting or tables"]
      else
        ["Great job! Your CV is well-optimized for ATS",
         "Consider customizing keywords for specific job applications"]) ∧
    (generateSuggestions s).length = (if s < 60 then 3 else if s < 80 then 3 else 2) := by
  refine ⟨rfl, ?_⟩
  unfold generateSuggestions
  split_ifs <;> rfl

/-- Claim C9: for every résumé text and every summary string,
`calculateBasicATSScore` returns a value in [70, 100], so the
summarization-based adapter's synthetic score lies in [70, 100]. -/
theorem calculateBasicATSScore_in_range (t s : String) :
    70 ≤ calculateBasicATSScore t s ∧ calculateBasicATSScore t s ≤ 100 := by
  constructor
  · have key : ∀ (c : Prop) [Decidable c] (x y : ℚ), 0 ≤ x → 0 ≤ y →
        (70 : ℚ) ≤ min 100 ((if c then (70 : ℚ) + 10 else 70) + x + y) := by
      intro c _ x y hx hy
      refine le_min (by norm_num) ?_
      split_ifs <;> linarith
    exact key _ _ _ (by positivity) (by positivity)
  · exact min_le_left _ _

/-- Claim C10: for every input text, the local heuristic scorer's rounded
weighted total is at least 20 (the formatting sub-score is at least 50 and the
structure sub-score at least 15), so the lower clamp to 0 is never active: the
returned score equals the rounded total, is at least 20, and the suggestions
— computed from the unclamped total — coincide with the suggestion band of
the returned score. -/
theorem localATSScore_total_ge_twenty_and_band_agrees (t : String) :
    (20 : ℚ) ≤ totalScore t ∧
    (calculateLocalATSScore t).score = totalScore t ∧
    (20 : ℚ) ≤ (calculateLocalATSScore t).score ∧
    (calculateLocalATSScore t).suggestions =
      generateSuggestions ((calculateLocalATSScore t).score) := by
  refine ⟨totalScore_ge t, score_eq_totalScore t, ?_, ?_⟩
  · rw [score_eq_totalScore t]
    exact totalScore_ge t
  · rw [score_eq_totalScore t]
    rfl

/-- Claim C5: the local heuristic scorer's `keywords` are exactly the catalog
terms contained in the lowercased text, in catalog order; `missingKeywords`
are the first (at most 5) unmatched catalog terms in catalog order; the two
lists are disjoint. -/
theorem localATSScore_keyword_partition (t : String) :
    (calculateLocalATSScore t).keywords =
      commonKeywords.filter (fun k => containsSub k.data (lowerStr t)) ∧
    (calculateLocalATSScore t).missingKeywords =
      (commonKeywords.filter (fun k => !containsSub k.data (lowerStr t))).take 5 ∧
    (calculateLocalATSScore t).missingKeywords.length ≤ 5 ∧
    ∀ k, k ∈ (calculateLocalATSScore t).keywords →
      k ∉ (calculateLocalATSScore t).missingKeywords := by
  have hmiss : (calculateLocalATSScore t).missingKeywords =
      (commonKeywords.filter (fun k => !containsSub k.data (lowerStr t))).take 5 := by
    show (commonKeywords.filter (fun k => !((foundKeywords t).contains k))).take 5 = _
    congr 1
    apply List.filter_congr
    intro a ha
    have hiff : (foundKeywords t).contains a = true ↔
        containsSub a.data (lowerStr t) = true := by
      constructor
      · intro hmem
        exact (List.mem_filter.mp (List.elem_iff.mp hmem)).2
      · intro hc
        exact List.elem_iff.mpr (List.mem_filter.mpr ⟨ha, hc⟩)
    cases hc : containsSub a.data (lowerStr t) with
    | true =>
      have hmem : a ∈ foundKeywords t := List.mem_filter.mpr ⟨ha, hc⟩
      simp [hc, hmem]
    | false =>
      cases hcc : (foundKeywords t).contains a with
      | true => exact absurd (hiff.mp hcc) (by simp [hc])
      | false => rfl
  refine ⟨rfl, hmiss, ?_, ?_⟩
  · rw [hmiss]
    exact List.length_take_le 5 _
  · intro k hk hmem
    have hcon : containsSub k.data (lowerStr t) = true :=
      (List.mem_filter.mp hk).2
    rw [hmiss] at hmem
    have hnot : (!containsSub k.data (lowerStr t)) = true :=
      (List.mem_filter.mp (List.mem_of_mem_take hmem)).2
    simp [hcon] at hnot

/-- Claim C6: every one of the four breakdown sub-scores produced by the
local heuristic scorer lies in [0, 100]. -/
theorem localATSScore_breakdown_in_range (t : String) :
    ∃ b, (calculateLocalATSScore t).breakdown = some b ∧
      0 ≤ b.keywordMatch ∧ b.keywordMatch ≤ 100 ∧
      0 ≤ b.formatting ∧ b.formatting ≤ 100 ∧
      0 ≤ b.«structure» ∧ b.«structure» ≤ 100 ∧
      0 ≤ b.contentQuality ∧ b.contentQuality ≤ 100 := by
  refine ⟨_, rfl, ?_, ?_, ?_, ?_, ?_, ?_, by norm_num, by norm_num⟩
  · simpa using le_jsRound_of_le 0 (by exact_mod_cast keywordScore_nonneg t)
  · simpa using jsRound_le_of_le 100 (by exact_mod_cast keywordScore_le t)
  · simpa using le_jsRound_of_le 0
      (by push_cast; linarith [(formattingScore_bounds t).1])
  · simpa using jsRound_le_of_le 100
      (by push_cast; linarith [(formattingScore_bounds t).2])
  · simpa using le_jsRound_of_le 0
      (by push_cast; linarith [(structureScore_bounds t).1])
  · simpa using jsRound_le_of_le 100
      (by push_cast; linarith [(structureScore_bounds t).2])

/-- Claim C8: appending any suffix (in particular one consisting of further
catalog keywords) never decreases the keywordMatch sub-score computed by the
local heuristic scorer, because appending text never removes a substring
match. -/
theorem localATSScore_keywordMatch_monotone (t s : String) :
    ∃ b b', (calculateLocalATSScore t).breakdown = some b ∧
      (calculateLocalATSScore (t ++ s)).breakdown = some b' ∧
      b.keywordMatch ≤ b'.keywordMatch := by
  refine ⟨_, _, rfl, rfl, ?_⟩
  show jsRound (keywordScore t) ≤ jsRound (keywordScore (t ++ s))
  apply jsRound_mono
  have hsub : List.Sublist
      (commonKeywords.filter (fun k => containsSub k.data (lowerStr t)))
      (commonKeywords.filter (fun k => containsSub k.data (lowerStr (t ++ s)))) := by
    apply List.monotone_filter_right
    intro a ha
    rw [lowerStr_append]
    exact containsSub_append _ _ _ ha
  have hlen : (foundKeywords t).length ≤ (foundKeywords (t ++ s)).length :=
    hsub.length_le
  have hc : ((foundKeywords t).length : ℚ) ≤ ((foundKeywords (t ++ s)).length : ℚ) := by
    exact_mod_cast hlen
  unfold keywordScore
  gcongr

/-- Counterexample for claim C3: on input text "developed" (with an empty
remote summary) the summarization-based adapter's score is 285/4 = 71.25,
which is not an integer — the action-verb bonus of `calculateBasicATSScore`
is added in increments of 5/4. -/
theorem huggingFace_score_not_integer :
    (huggingFaceResult "developed" "").score = 285 / 4 ∧
    ((huggingFaceResult "developed" "").score).den ≠ 1 := by
  have h1 : (lowerStr "").length = 0 := by decide
  have h2 : (["python", "javascript", "react", "sql", "aws"].filter
      (fun k => containsSub k.data (lowerStr "developed"))) = [] := by decide
  have h3 : (["developed", "implemented", "managed", "created"].filter
      (fun v => containsSub v.data (lowerStr "developed"))) = ["developed"] := by decide
  have hval : calculateBasicATSScore "developed" "" = 285 / 4 := by
    simp [calculateBasicATSScore, h1, h2, h3, min_def]
    norm_num
  refine ⟨hval, ?_⟩
  show (calculateBasicATSScore "developed" "").den ≠ 1
  rw [hval]
  norm_num [Rat.den]

/-- Claim C3 (amended): the score produced by the local heuristic scorer is
always an integer (a `Math.round` result clamped between the integers 0 and
100); the summarization-based adapter's score, by contrast, need not be an
integer (see the counterexample). -/
theorem localATSScore_score_isInt (t : String) :
    ((calculateLocalATSScore t).score).den = 1 := by
  show (max 0 (min 100 (totalScore t))).den = 1
  unfold totalScore jsRound
  rw [show (100 : ℚ) = ((100 : ℤ) : ℚ) by norm_num,
    show (0 : ℚ) = ((0 : ℤ) : ℚ) by norm_num,
    ← Int.cast_min, ← Int.cast_max, Rat.den_intCast]

/-- Claim C4: on the empty-string input the local heuristic scorer produces
keywordMatch 0, formatting 85 (only the word-count-below-200 penalty of 15
fires), structure 15 (all four section-marker penalties fire), and aggregate
score round(0.4×0 + 0.3×85 + 0.3×15) = 30. -/
theorem localATSScore_empty_input_eval :
    (calculateLocalATSScore "").breakdown =
      some { keywordMatch := 0, formatting := 85, «structure» := 15, contentQuality := 75 } ∧
    (calculateLocalATSScore "").score = 30 := by
  have hfk : foundKeywords "" = [] := by decide
  have hk : keywordScore "" = 0 := by simp [keywordScore, hfk]
  have e1 : (containsSub "table".data (lowerStr "") ||
      containsSub "image".data (lowerStr "")) = false := by decide
  have e2 : wordCount (lowerStr "") = 0 := by decide
  have hf : formattingScore "" = 85 := by
    simp [formattingScore, e1, e2]
    norm_num
  have s1 : containsSub "email".data (lowerStr "") = false := by decide
  have s2 : containsSub "@".data (lowerStr "") = false := by decide
  have s3 : containsSub "experience".data (lowerStr "") = false := by decide
  have s4 : containsSub "education".data (lowerStr "") = false := by decide
  have s5 : containsSub "skills".data (lowerStr "") = false := by decide
  have hs : structureScore "" = 15 := by
    simp [structureScore, s1, s2, s3, s4, s5]
    norm_num
  have ht : totalScore "" = 30 := by
    simp [totalScore, hk, hf, hs, jsRound]
    norm_num
  constructor
  · have hb : (calculateLocalATSScore "").breakdown =
        some { keywordMatch := jsRound (keywordScore "")
               formatting := jsRound (formattingScore "")
               «structure» := jsRound (structureScore "")
               contentQuality := 75 } := rfl
    rw [hb, hk, hf, hs]
    simp [jsRound]
    norm_num
  · have hsc : (calculateLocalATSScore "").score = max 0 (min 100 (totalScore "")) := rfl
    rw [hsc, ht]
    norm_num
